import Mathlib

/-!
Shallow embedding of the `KeyValues` parser in `install_linux.py`
(the minified `valve-keyvalues-python` library embedded in the
AssetInstaller repository).

The Python parser `KeyValues.__parse(lines, i=0)` scans a list of
already-stripped text lines with a cursor `i` and a pending key
(`key`, initially the Python value `False`), building an
`OrderedDict`.  Its two class-level regular expressions are

  key       : (['"])(?P<key>((?!\1).)*)\1(?!.)
  key_value : (['"])(?P<key>((?!\1).)*)\1(\s+|)['"](?P<value>((?!\1).)*)\1

and the loop body is, in order:

  1. `lines[i].startswith("{")`  : needs a truthy pending key, else it
     raises `Exception("'{' found without key at line i+1")`; otherwise a
     recursive call parses the block body from `i+1` and its result is
     tuple-unpacked into `_mapper[key], i`.
  2. `lines[i].startswith("}")`  : returns the pair `(_mapper, i+1)`.
  3. `re.match(key, lines[i])`   : sets the pending key, `i += 1`.
  4. `re.match(key_value, lines[i])` : binds key/value into the
     `OrderedDict`, `i += 1`.
  5. `re.match(key_value, lines[i] + lines[i+1])` (no separator) as the
     guard, then `re.search(key_value, lines[i] + " " + lines[i+1])`
     (with a space) for the captures: binds the pair, `i += 1`.
  6. otherwise `i += 1`.

The whole loop sits in `try: ... except IndexError: pass`, and the
function falls through to a bare `return _mapper` (not a tuple) both
when the cursor runs off the end of the input and when the lookahead
`lines[i+1]` of case 5 raises `IndexError`.  A nested call that ends
this way hands a bare `OrderedDict` to the caller's tuple unpacking
`_mapper[key], i = ...`, which raises `ValueError` unless the dict has
exactly two entries, in which case the two keys are unpacked and the
subsequent `while i < len(lines)` comparison of a `str` with an `int`
raises `TypeError`.  All of this is modelled exactly below.
-/

set_option maxRecDepth 8000

/-- Left brace character `{`. -/
def lbrace : Char := Char.ofNat 123

/-- Right brace character `\x7d`. -/
def rbrace : Char := Char.ofNat 125

/-- Single quote character. -/
def squote : Char := Char.ofNat 39

/-- Double quote character. -/
def dquote : Char := Char.ofNat 34

/-- Newline character, which the regex atom `.` never matches
(`re.DOTALL` is not set on either pattern). -/
def nlChar : Char := Char.ofNat 10

/-- The character class `['"]` of the two patterns. -/
def isQuote (c : Char) : Bool := c == squote || c == dquote

/-- The character class `\s` of Python `re` on `str` patterns:
the six ASCII whitespace characters plus the Unicode characters for
which `str.isspace()` holds. -/
def isSpaceCh (c : Char) : Bool :=
  c == ' ' || c == Char.ofNat 9 || c == nlChar || c == Char.ofNat 13 ||
  c == Char.ofNat 11 || c == Char.ofNat 12 ||
  c == Char.ofNat 28 || c == Char.ofNat 29 || c == Char.ofNat 30 ||
  c == Char.ofNat 31 || c == Char.ofNat 133 || c == Char.ofNat 160 ||
  c == Char.ofNat 5760 || (8192 ≤ c.toNat && c.toNat ≤ 8202) ||
  c == Char.ofNat 8232 || c == Char.ofNat 8233 || c == Char.ofNat 8239 ||
  c == Char.ofNat 8287 || c == Char.ofNat 12288

/-- Scan `((?!q).)*q`: the token body runs up to the first occurrence of
the quote character `q` (the body may not contain `q`, and `.` blocks a
newline), and the closing `q` is consumed.  Returns the body and the
remainder after the closing quote, or `none` when no closing quote is
reachable.  The star is greedy, but since the body excludes `q` and the
closing backreference demands `q`, the first occurrence of `q` is the
only possible split, so this scan is exact. -/
def scanTok (q : Char) : List Char → Option (List Char × List Char)
  | [] => none
  | c :: cs =>
    if c == q then some ([], cs)
    else if c == nlChar then none
    else
      match scanTok q cs with
      | some (b, r) => some (c :: b, r)
      | none => none

/-- Drop the maximal leading run of `\s` characters.  This is the effect
of the greedy alternation `(\s+|)` followed by the mandatory `['"]`: a
shorter run leaves a whitespace character (never a quote) under the
`['"]` atom, so only the maximal run or, when there is no whitespace at
all, the empty alternative can succeed. -/
def dropWsRun : List Char → List Char
  | [] => []
  | c :: cs => if isSpaceCh c then dropWsRun cs else c :: cs

/-- Anchored match of the `key` pattern
`(['"])(?P<key>((?!\1).)*)\1(?!.)` against a whole line (the code uses
`re.match`, and the search that extracts the group finds the same
leftmost match).  The trailing `(?!.)` succeeds exactly when the closing
quote is at the end of the string or directly before a newline.
Returns the captured `key` group. -/
def keyCapL : List Char → Option (List Char)
  | [] => none
  | q :: rest =>
    if isQuote q then
      match scanTok q rest with
      | some (b, r) =>
        (match r with
         | [] => some b
         | c :: _ => if c == nlChar then some b else none)
      | none => none
    else none

/-- Anchored (prefix) match of the `key_value` pattern
`(['"])(?P<key>((?!\1).)*)\1(\s+|)['"](?P<value>((?!\1).)*)\1`.
Note that the value's opening delimiter is any quote character but its
closing delimiter is the backreference `\1`, i.e. the key's quote
character, and the value body excludes the key's quote character.
Anything after the value's closing quote is ignored (`re.match` only
anchors the start).  Returns the captured `(key, value)` groups. -/
def kvCapL (s : List Char) : Option (List Char × List Char) :=
  match s with
  | [] => none
  | q :: rest =>
    if isQuote q then
      match scanTok q rest with
      | some (k, r) =>
        (match dropWsRun r with
         | [] => none
         | p :: r2 =>
           if isQuote p then
             match scanTok q r2 with
             | some (v, _) => some (k, v)
             | none => none
           else none)
      | none => none
    else none

/-- Unanchored `re.search` of the `key_value` pattern: the leftmost
starting position at which the anchored match succeeds. -/
def kvSearchL : List Char → Option (List Char × List Char)
  | [] => none
  | c :: cs =>
    match kvCapL (c :: cs) with
    | some r => some r
    | none => kvSearchL cs

/-- Test of `str.startswith` against a one-character prefix: the string
is nonempty and its first character is `c`. -/
def startsWithChar (c : Char) (s : String) : Bool :=
  match s.data with
  | [] => false
  | a :: _ => a == c

/-- A parsed KeyValues tree node: either a leaf string or a mapping,
modelled as the insertion-ordered pair list of the Python
`OrderedDict`. -/
inductive Node where
  | scalar : String → Node
  | mapping : List (String × Node) → Node

/-- `OrderedDict.__setitem__`: an existing key keeps its position and
has its value replaced; a new key is appended at the end. -/
def odInsert (m : List (String × Node)) (k : String) (v : Node) : List (String × Node) :=
  if m.any (fun p => p.1 == k) then
    m.map (fun p => if p.1 == k then (k, v) else p)
  else m ++ [(k, v)]

/-- The exceptions `KeyValues.__parse` can raise.  `structural` is the
explicit `Exception("'{' found without key at line n")` with its 1-based
line number; `unpackError` is the `ValueError` raised when a nested call
returns a bare `OrderedDict` whose size is not 2 and the caller
tuple-unpacks it; `typeError` is the `TypeError` raised when that dict
has exactly two entries, so unpacking succeeds, the cursor becomes a
string, and the loop condition compares `str` with `int`;
`attributeError` is the `AttributeError` that would arise in case 5 if
the guarding `re.match` succeeded but the spaced `re.search` returned
`None`. -/
inductive PError where
  | structural : Nat → PError
  | unpackError : PError
  | typeError : PError
  | attributeError : PError
deriving DecidableEq

/-- Outcome of one invocation of `KeyValues.__parse`: `tup` is the
`return _mapper, i + 1` of the closing-brace branch; `bare` is the
final `return _mapper` reached when the loop exhausts the input or the
case-5 lookahead raises `IndexError`; `err` is a propagating exception;
`fuelOut` is the artefact of the fuel parameter of the Lean model and
is never produced when the fuel exceeds the number of lines. -/
inductive POut where
  | tup : List (String × Node) → Nat → POut
  | bare : List (String × Node) → POut
  | err : PError → POut
  | fuelOut : POut

/-- Truthiness of the Python `key` variable, which is `False` initially
and a string afterwards: `if not key` holds for `False` and for the
empty string. -/
def keyFalsy : Option String → Bool
  | none => true
  | some s => s.isEmpty

/-- Model of `KeyValues.__parse(lines, i)`.  `key` is the pending key
(`none` is the initial Python `False`), `acc` the `_mapper` accumulated
so far, `i` the cursor, and `fuel` a structural-recursion bound that is
never exhausted when it exceeds the number of remaining lines.  The
branches are, in source order: opening brace (recursive call and tuple
unpacking of its result), closing brace, `key` match, `key_value` match
on one line, `key_value` match on two concatenated lines (guarded
without a separator, captured with a separating space), and the silent
skip; the case-5 lookahead `lines[i+1]` past the end of the input raises
`IndexError`, which the surrounding handler turns into a bare
`return _mapper`. -/
def parseLoop (lines : List String) : Nat → Option String → List (String × Node) → Nat → POut
  | 0, _, _, _ => POut.fuelOut
  | fuel+1, key, acc, i =>
    if i < lines.length then
      if startsWithChar lbrace (lines.getD i "") then
        match key with
        | none => POut.err (PError.structural (i+1))
        | some k =>
          if k.isEmpty then POut.err (PError.structural (i+1))
          else
            match parseLoop lines fuel none [] (i+1) with
            | POut.tup m j => parseLoop lines fuel (some k) (odInsert acc k (Node.mapping m)) j
            | POut.bare m =>
              if m.length == 2 then POut.err PError.typeError
              else POut.err PError.unpackError
            | POut.err e => POut.err e
            | POut.fuelOut => POut.fuelOut
      else if startsWithChar rbrace (lines.getD i "") then
        POut.tup acc (i+1)
      else
        match keyCapL (lines.getD i "").data with
        | some k => parseLoop lines fuel (some (String.mk k)) acc (i+1)
        | none =>
          match kvCapL (lines.getD i "").data with
          | some kv =>
            parseLoop lines fuel key (odInsert acc (String.mk kv.1) (Node.scalar (String.mk kv.2))) (i+1)
          | none =>
            if i + 1 < lines.length then
              match kvCapL ((lines.getD i "").data ++ (lines.getD (i+1) "").data) with
              | some _ =>
                match kvSearchL ((lines.getD i "").data ++ ' ' :: (lines.getD (i+1) "").data) with
                | some kv =>
                  parseLoop lines fuel key (odInsert acc (String.mk kv.1) (Node.scalar (String.mk kv.2))) (i+1)
                | none => POut.err PError.attributeError
              | none => parseLoop lines fuel key acc (i+1)
            else POut.bare acc
    else POut.bare acc

/-- The top-level parse of a list of already-stripped lines: the
outermost call `KeyValues.__parse(lines, i=0)` made by
`KeyValues.parse`.  On this call a `bare` outcome is the normal
success (`self.__mapper` is set to the returned `OrderedDict`), while a
`tup` outcome stores a `(mapping, cursor)` pair and an `err` outcome
propagates to the caller.  The fuel bound `lines.length + 1` is enough
for every input because each recursive level starts past its opening
brace and each iteration strictly advances the cursor. -/
def parse (lines : List String) : POut :=
  parseLoop lines (lines.length + 1) none [] 0

/-- Replacing a list entry does not change `getD` at any other index. -/
theorem getD_set_ne (a d : String) :
    ∀ (l : List String) (i j : Nat), i ≠ j → (l.set i a).getD j d = l.getD j d := by
  intro l
  induction l with
  | nil => intro i j _; simp
  | cons x xs ih =>
    intro i j hij
    cases i with
    | zero =>
      cases j with
      | zero => exact absurd rfl hij
      | succ j => simp [List.getD]
    | succ i =>
      cases j with
      | zero => simp [List.getD]
      | succ j => simpa [List.getD] using ih i j (fun h => hij (by omega))

/-- Replacing a list entry changes `getD` at that index to the new value
whenever the index is in bounds. -/
theorem getD_set_self (a d : String) :
    ∀ (l : List String) (i : Nat), i < l.length → (l.set i a).getD i d = a := by
  intro l
  induction l with
  | nil => intro i h; simp at h
  | cons x xs ih =>
    intro i h
    cases i with
    | zero => simp [List.getD]
    | succ i => simpa [List.getD] using ih i (by simpa using h)

/-- Scanning for the closing quote walks exactly over a body that
contains neither the quote character nor a newline, and stops at the
closing quote. -/
theorem scanTok_append (q : Char) :
    ∀ (k r : List Char), (∀ c ∈ k, c ≠ q ∧ c ≠ nlChar) →
      scanTok q (k ++ (q :: r)) = some (k, r) := by
  intro k
  induction k with
  | nil => intro r _; simp [scanTok]
  | cons c cs ih =>
    intro r hk
    have hc := hk c (List.mem_cons_self c cs)
    simp [scanTok, hc.1, hc.2, ih r (fun d hd => hk d (List.mem_cons_of_mem c hd))]

/-- A line that starts with a closing brace does not start with an
opening brace. -/
theorem rbrace_not_lbrace (s : String) (h : startsWithChar rbrace s = true) :
    startsWithChar lbrace s = false := by
  unfold startsWithChar at h ⊢
  cases hd : s.data with
  | nil => rfl
  | cons a l =>
    rw [hd] at h
    have ha : a = rbrace := eq_of_beq h
    subst ha
    show (rbrace == lbrace) = false
    decide

/-- An invocation of the parser that returns through the closing-brace
branch always returns a cursor strictly beyond its starting cursor. -/
theorem parseLoop_tup_lt (lines : List String) :
    ∀ (fuel : Nat) (key : Option String) (acc m : List (String × Node)) (i j : Nat),
      parseLoop lines fuel key acc i = POut.tup m j → i < j := by
  intro fuel
  induction fuel with
  | zero => intro key acc m i j h; simp [parseLoop] at h
  | succ fuel ih =>
    intro key acc m i j h
    simp only [parseLoop] at h
    split at h
    · split at h
      · split at h
        · simp at h
        · split at h
          · simp at h
          · split at h
            · next m' j' hres =>
              have h1 : i + 1 < j' := ih none [] m' (i+1) j' hres
              have h2 : j' < j := ih _ _ m j' j h
              omega
            · split at h <;> simp at h
            · simp at h
            · simp at h
      · split at h
        · cases h
          exact Nat.lt_succ_self i
        · split at h
          · have := ih _ _ m (i+1) j h
            omega
          · split at h
            · have := ih _ _ m (i+1) j h
              omega
            · split at h
              · split at h
                · split at h
                  · have := ih _ _ m (i+1) j h
                    omega
                  · simp at h
                · have := ih _ _ m (i+1) j h
                  omega
              · simp at h
    · simp at h

/-- The parser reads only the lines at or beyond its cursor: on two
inputs of the same length that agree from index `i` onwards, parsing
from cursor `i` gives the same outcome. -/
theorem parseLoop_agree (lines₁ lines₂ : List String) (hlen : lines₁.length = lines₂.length) :
    ∀ (fuel : Nat) (key : Option String) (acc : List (String × Node)) (i : Nat),
      (∀ j, i ≤ j → lines₁.getD j "" = lines₂.getD j "") →
      parseLoop lines₁ fuel key acc i = parseLoop lines₂ fuel key acc i := by
  intro fuel
  induction fuel with
  | zero => intro key acc i _; rfl
  | succ fuel ih =>
    intro key acc i hag
    have hag' : ∀ j, i + 1 ≤ j → lines₁.getD j "" = lines₂.getD j "" :=
      fun j hj => hag j (by omega)
    have hline : lines₁.getD i "" = lines₂.getD i "" := hag i (Nat.le_refl i)
    simp only [parseLoop, hlen, hline, hag (i+1) (Nat.le_succ i)]
    rw [ih none [] (i+1) hag', ih key acc (i+1) hag']
    split
    · split
      · split
        · rfl
        · next k =>
          split
          · rfl
          · split
            · next m' j' hres =>
              apply ih
              intro j'' hj''
              have := parseLoop_tup_lt lines₂ fuel none [] m' (i+1) j' hres
              exact hag j'' (by omega)
            · rfl
            · rfl
            · rfl
      · split
        · rfl
        · split
          · exact ih _ _ _ hag'
          · split
            · exact ih _ _ _ hag'
            · split
              · split
                · split
                  · exact ih _ _ _ hag'
                  · rfl
                · rfl
              · rfl
    · rfl

/-- A quote character is one of the two concrete quote characters. -/
theorem isQuote_elim {c : Char} (h : isQuote c = true) : c = squote ∨ c = dquote := by
  simpa [isQuote] using h

/-- Quote characters are not the opening brace. -/
theorem quote_ne_lbrace {c : Char} (h : isQuote c = true) : (c == lbrace) = false := by
  rcases isQuote_elim h with rfl | rfl <;> decide

/-- Quote characters are not the closing brace. -/
theorem quote_ne_rbrace {c : Char} (h : isQuote c = true) : (c == rbrace) = false := by
  rcases isQuote_elim h with rfl | rfl <;> decide

/-- Quote characters are not whitespace. -/
theorem quote_not_space {c : Char} (h : isQuote c = true) : isSpaceCh c = false := by
  rcases isQuote_elim h with rfl | rfl <;> decide

/-- Matching a one-character prefix against an explicit character list
reduces to an equality test on the first character. -/
theorem startsWithChar_mk (c a : Char) (l : List Char) :
    startsWithChar c (String.mk (a :: l)) = (a == c) := rfl

/-- Scanning for a closing quote that never occurs fails. -/
theorem scanTok_none (q : Char) :
    ∀ (l : List Char), (∀ c ∈ l, c ≠ q) → scanTok q l = none := by
  intro l
  induction l with
  | nil => simp [scanTok]
  | cons c cs ih =>
    intro hl
    have hc := hl c (List.mem_cons_self c cs)
    simp [scanTok, hc, ih (fun d hd => hl d (List.mem_cons_of_mem c hd))]

/-- Single unfolding of the parser loop at a closing-brace line. -/
theorem parseLoop_step_rbrace (lines : List String) (fuel : Nat) (key : Option String)
    (acc : List (String × Node)) (i : Nat)
    (h : i < lines.length) (hb : startsWithChar rbrace (lines.getD i "") = true) :
    parseLoop lines (fuel+1) key acc i = POut.tup acc (i+1) := by
  simp only [parseLoop]
  rw [if_pos h, rbrace_not_lbrace _ hb, hb]
  rfl

/-- Single unfolding of the parser loop at an opening-brace line with no
pending key: the structural error carries the 1-based line number. -/
theorem parseLoop_step_lbrace_nokey (lines : List String) (fuel : Nat)
    (acc : List (String × Node)) (i : Nat)
    (h : i < lines.length) (hb : startsWithChar lbrace (lines.getD i "") = true) :
    parseLoop lines (fuel+1) none acc i = POut.err (PError.structural (i+1)) := by
  simp only [parseLoop]
  rw [if_pos h, hb]
  rfl

/-- Single unfolding of the parser loop at a line matching the `key`
pattern: the pending key is replaced and the cursor advances by one. -/
theorem parseLoop_step_key (lines : List String) (fuel : Nat) (key : Option String)
    (acc : List (String × Node)) (i : Nat) (kk : List Char)
    (h : i < lines.length)
    (hb1 : startsWithChar lbrace (lines.getD i "") = false)
    (hb2 : startsWithChar rbrace (lines.getD i "") = false)
    (hkey : keyCapL (lines.getD i "").data = some kk) :
    parseLoop lines (fuel+1) key acc i = parseLoop lines fuel (some (String.mk kk)) acc (i+1) := by
  simp only [parseLoop]
  rw [if_pos h, hb1, hb2, hkey]
  rfl

/-- Single unfolding of the parser loop at a line matching the
`key_value` pattern: the pair is bound and the cursor advances by one,
with the pending key untouched. -/
theorem parseLoop_step_kv (lines : List String) (fuel : Nat) (key : Option String)
    (acc : List (String × Node)) (i : Nat) (kk vv : List Char)
    (h : i < lines.length)
    (hb1 : startsWithChar lbrace (lines.getD i "") = false)
    (hb2 : startsWithChar rbrace (lines.getD i "") = false)
    (hkey : keyCapL (lines.getD i "").data = none)
    (hkv : kvCapL (lines.getD i "").data = some (kk, vv)) :
    parseLoop lines (fuel+1) key acc i
      = parseLoop lines fuel key (odInsert acc (String.mk kk) (Node.scalar (String.mk vv))) (i+1) := by
  simp only [parseLoop]
  rw [if_pos h, hb1, hb2, hkey, hkv]
  rfl

/-- Single unfolding of the parser loop at an unrecognized line with a
following line whose concatenation also fails the guard: the line is
silently skipped. -/
theorem parseLoop_step_skip (lines : List String) (fuel : Nat) (key : Option String)
    (acc : List (String × Node)) (i : Nat)
    (h : i < lines.length)
    (hb1 : startsWithChar lbrace (lines.getD i "") = false)
    (hb2 : startsWithChar rbrace (lines.getD i "") = false)
    (hkey : keyCapL (lines.getD i "").data = none)
    (hkv : kvCapL (lines.getD i "").data = none)
    (h2 : i + 1 < lines.length)
    (hcat : kvCapL ((lines.getD i "").data ++ (lines.getD (i+1) "").data) = none) :
    parseLoop lines (fuel+1) key acc i = parseLoop lines fuel key acc (i+1) := by
  simp only [parseLoop]
  rw [if_pos h, hb1, hb2, hkey, hkv, if_pos h2, hcat]
  rfl

/-- Single unfolding of the parser loop at an unrecognized final line:
the case-5 lookahead `lines[i+1]` raises `IndexError`, the handler
swallows it, and the accumulated mapping is returned bare. -/
theorem parseLoop_step_lookahead_end (lines : List String) (fuel : Nat) (key : Option String)
    (acc : List (String × Node)) (i : Nat)
    (h : i < lines.length)
    (hb1 : startsWithChar lbrace (lines.getD i "") = false)
    (hb2 : startsWithChar rbrace (lines.getD i "") = false)
    (hkey : keyCapL (lines.getD i "").data = none)
    (hkv : kvCapL (lines.getD i "").data = none)
    (hend : ¬ i + 1 < lines.length) :
    parseLoop lines (fuel+1) key acc i = POut.bare acc := by
  simp only [parseLoop]
  rw [if_pos h, hb1, hb2, hkey, hkv, if_neg hend]
  rfl

/-- Single unfolding of the parser loop once the cursor has passed the
last line: the accumulated mapping is returned bare. -/
theorem parseLoop_step_end (lines : List String) (fuel : Nat) (key : Option String)
    (acc : List (String × Node)) (i : Nat)
    (h : ¬ i < lines.length) :
    parseLoop lines (fuel+1) key acc i = POut.bare acc := by
  simp only [parseLoop]
  rw [if_neg h]

/-- Single unfolding of the parser loop at the two-line case: the guard
matches the two lines concatenated without a separator, the captures
come from the leftmost search match of the two lines joined by a single
space, and the cursor advances by one line only. -/
theorem parseLoop_step_twoline (lines : List String) (fuel : Nat) (key : Option String)
    (acc : List (String × Node)) (i : Nat) (r : List Char × List Char) (kk vv : List Char)
    (h : i < lines.length)
    (hb1 : startsWithChar lbrace (lines.getD i "") = false)
    (hb2 : startsWithChar rbrace (lines.getD i "") = false)
    (hkey : keyCapL (lines.getD i "").data = none)
    (hkv : kvCapL (lines.getD i "").data = none)
    (h2 : i + 1 < lines.length)
    (hcat : kvCapL ((lines.getD i "").data ++ (lines.getD (i+1) "").data) = some r)
    (hsearch : kvSearchL ((lines.getD i "").data ++ ' ' :: (lines.getD (i+1) "").data) = some (kk, vv)) :
    parseLoop lines (fuel+1) key acc i
      = parseLoop lines fuel key (odInsert acc (String.mk kk) (Node.scalar (String.mk vv))) (i+1) := by
  simp only [parseLoop]
  rw [if_pos h, hb1, hb2, hkey, hkv, if_pos h2, hcat, hsearch]
  rfl

/-- Evaluation of the `key` pattern on a line made of a quoted token
followed by more material: the trailing material makes the `(?!.)`
lookahead fail, so there is no match. -/
theorem keyCapL_token_trailing (q : Char) (k r : List Char) (c : Char)
    (hq : isQuote q = true) (hk : ∀ d ∈ k, d ≠ q ∧ d ≠ nlChar) (hc : (c == nlChar) = false) :
    keyCapL (q :: (k ++ q :: c :: r)) = none := by
  simp only [keyCapL, hq, if_true]
  rw [scanTok_append q k (c :: r) hk]
  simp [hc]

/-- Evaluation of the `key_value` pattern on a line with a `q`-quoted
key, a single-space separator, a value opened by any quote character and
closed by `q`, and arbitrary trailing material. -/
theorem kvCapL_line (q p : Char) (k v t : List Char)
    (hq : isQuote q = true) (hp : isQuote p = true)
    (hk : ∀ c ∈ k, c ≠ q ∧ c ≠ nlChar) (hv : ∀ c ∈ v, c ≠ q ∧ c ≠ nlChar) :
    kvCapL (q :: (k ++ q :: ' ' :: p :: (v ++ q :: t))) = some (k, v) := by
  simp only [kvCapL, hq, if_true]
  rw [scanTok_append q k _ hk]
  show (match dropWsRun (' ' :: p :: (v ++ q :: t)) with
        | [] => none
        | p :: r2 =>
          if isQuote p then
            match scanTok q r2 with
            | some (v, _) => some (k, v)
            | none => none
          else none) = some (k, v)
  rw [show dropWsRun (' ' :: p :: (v ++ q :: t)) = p :: (v ++ q :: t) by
        simp [dropWsRun, quote_not_space hp, (by decide : isSpaceCh ' ' = true)]]
  simp only [hp, if_true]
  rw [scanTok_append q v t hv]

/-- Evaluation of the `key_value` pattern on a line whose value token is
never closed by the key's quote character: the backreference `\1` can
not be satisfied, so there is no match. -/
theorem kvCapL_line_unclosed (q p : Char) (k tail : List Char)
    (hq : isQuote q = true) (hp : isQuote p = true)
    (hk : ∀ c ∈ k, c ≠ q ∧ c ≠ nlChar) (htail : ∀ c ∈ tail, c ≠ q) :
    kvCapL (q :: (k ++ q :: ' ' :: p :: tail)) = none := by
  simp only [kvCapL, hq, if_true]
  rw [scanTok_append q k _ hk]
  show (match dropWsRun (' ' :: p :: tail) with
        | [] => none
        | p :: r2 =>
          if isQuote p then
            match scanTok q r2 with
            | some (v, _) => some (k, v)
            | none => none
          else none) = none
  rw [show dropWsRun (' ' :: p :: tail) = p :: tail by
        simp [dropWsRun, quote_not_space hp, (by decide : isSpaceCh ' ' = true)]]
  simp only [hp, if_true]
  rw [scanTok_none q tail htail]

/-- A character that is not a quote differs from both quote characters. -/
theorem not_quote_elim {c : Char} (h : isQuote c = false) : c ≠ squote ∧ c ≠ dquote := by
  constructor <;> intro he <;> subst he <;> simp [isQuote] at h

/-- Parsing a single line made of a `q`-quoted key, one space, a value
opened by any quote character `p` and closed by `q`, and arbitrary
trailing material binds exactly the pair `(key, value)`: everything
after the value's closing quote is ignored. -/
theorem parse_single_kv_line (q p : Char) (k v t : List Char)
    (hq : isQuote q = true) (hp : isQuote p = true)
    (hk : ∀ c ∈ k, c ≠ q ∧ c ≠ nlChar) (hv : ∀ c ∈ v, c ≠ q ∧ c ≠ nlChar) :
    parse [String.mk (q :: (k ++ q :: ' ' :: p :: (v ++ q :: t)))]
      = POut.bare [(String.mk k, Node.scalar (String.mk v))] := by
  have hb1 : startsWithChar lbrace (String.mk (q :: (k ++ q :: ' ' :: p :: (v ++ q :: t)))) = false := by
    rw [startsWithChar_mk]; exact quote_ne_lbrace hq
  have hb2 : startsWithChar rbrace (String.mk (q :: (k ++ q :: ' ' :: p :: (v ++ q :: t)))) = false := by
    rw [startsWithChar_mk]; exact quote_ne_rbrace hq
  have hkey : keyCapL (q :: (k ++ q :: ' ' :: p :: (v ++ q :: t))) = none :=
    keyCapL_token_trailing q k (p :: (v ++ q :: t)) ' ' hq hk (by decide)
  have hkv : kvCapL (q :: (k ++ q :: ' ' :: p :: (v ++ q :: t))) = some (k, v) :=
    kvCapL_line q p k v t hq hp hk hv
  calc parse [String.mk (q :: (k ++ q :: ' ' :: p :: (v ++ q :: t)))]
      = parseLoop [String.mk (q :: (k ++ q :: ' ' :: p :: (v ++ q :: t)))]
          ([String.mk (q :: (k ++ q :: ' ' :: p :: (v ++ q :: t)))].length + 1) none [] 0 := rfl
    _ = parseLoop [String.mk (q :: (k ++ q :: ' ' :: p :: (v ++ q :: t)))]
          [String.mk (q :: (k ++ q :: ' ' :: p :: (v ++ q :: t)))].length none
          (odInsert [] (String.mk k) (Node.scalar (String.mk v))) 1 :=
        parseLoop_step_kv _ _ none [] 0 k v (by simp) hb1 hb2 hkey hkv
    _ = POut.bare (odInsert [] (String.mk k) (Node.scalar (String.mk v))) :=
        parseLoop_step_end _ 0 none _ 1 (by simp)
    _ = POut.bare [(String.mk k, Node.scalar (String.mk v))] := rfl

/-- Parsing a single line made of a `q`-quoted key, one space, a quote
character `p` and then material in which `q` never occurs matches
neither pattern, so the line is silently discarded. -/
theorem parse_single_unclosed (q p : Char) (k tail : List Char)
    (hq : isQuote q = true) (hp : isQuote p = true)
    (hk : ∀ c ∈ k, c ≠ q ∧ c ≠ nlChar) (htail : ∀ c ∈ tail, c ≠ q) :
    parse [String.mk (q :: (k ++ q :: ' ' :: p :: tail))] = POut.bare [] := by
  have hb1 : startsWithChar lbrace (String.mk (q :: (k ++ q :: ' ' :: p :: tail))) = false := by
    rw [startsWithChar_mk]; exact quote_ne_lbrace hq
  have hb2 : startsWithChar rbrace (String.mk (q :: (k ++ q :: ' ' :: p :: tail))) = false := by
    rw [startsWithChar_mk]; exact quote_ne_rbrace hq
  have hkey : keyCapL (q :: (k ++ q :: ' ' :: p :: tail)) = none :=
    keyCapL_token_trailing q k (p :: tail) ' ' hq hk (by decide)
  have hkv : kvCapL (q :: (k ++ q :: ' ' :: p :: tail)) = none :=
    kvCapL_line_unclosed q p k tail hq hp hk htail
  calc parse [String.mk (q :: (k ++ q :: ' ' :: p :: tail))]
      = parseLoop [String.mk (q :: (k ++ q :: ' ' :: p :: tail))]
          ([String.mk (q :: (k ++ q :: ' ' :: p :: tail))].length + 1) none [] 0 := rfl
    _ = POut.bare [] :=
        parseLoop_step_lookahead_end _ _ none [] 0 (by simp) hb1 hb2 hkey hkv (by simp)

/-- Single unfolding of the parser loop at an opening-brace line,
leaving the pending-key dispatch explicit. -/
theorem parseLoop_step_lbrace (lines : List String) (fuel : Nat) (key : Option String)
    (acc : List (String × Node)) (i : Nat)
    (h : i < lines.length) (hb : startsWithChar lbrace (lines.getD i "") = true) :
    parseLoop lines (fuel+1) key acc i =
      match key with
      | none => POut.err (PError.structural (i+1))
      | some k =>
        if k.isEmpty then POut.err (PError.structural (i+1))
        else
          match parseLoop lines fuel none [] (i+1) with
          | POut.tup m j => parseLoop lines fuel (some k) (odInsert acc k (Node.mapping m)) j
          | POut.bare m =>
            if m.length == 2 then POut.err PError.typeError
            else POut.err PError.unpackError
          | POut.err e => POut.err e
          | POut.fuelOut => POut.fuelOut := by
  simp only [parseLoop]
  rw [if_pos h, hb]
  rfl

/-- The opening-brace branch looks only at the first character of the
line: replacing an opening-brace line by the bare one-character brace
line leaves the whole parse of the level unchanged. -/
theorem parseLoop_set_lbrace (lines : List String) (fuel : Nat) (key : Option String)
    (acc : List (String × Node)) (i : Nat)
    (h : i < lines.length) (hb : startsWithChar lbrace (lines.getD i "") = true) :
    parseLoop lines fuel key acc i
      = parseLoop (lines.set i (String.mk [lbrace])) fuel key acc i := by
  cases fuel with
  | zero => rfl
  | succ fuel =>
    have hlen : lines.length = (lines.set i (String.mk [lbrace])).length := by
      rw [List.length_set]
    have hag1 : ∀ j, i + 1 ≤ j →
        lines.getD j "" = (lines.set i (String.mk [lbrace])).getD j "" :=
      fun j hj => (getD_set_ne (String.mk [lbrace]) "" lines i j (by omega)).symm
    have h' : i < (lines.set i (String.mk [lbrace])).length := by rw [List.length_set]; exact h
    have hb' : startsWithChar lbrace ((lines.set i (String.mk [lbrace])).getD i "") = true := by
      rw [getD_set_self _ _ _ _ h]; decide
    rw [parseLoop_step_lbrace lines fuel key acc i h hb,
        parseLoop_step_lbrace (lines.set i (String.mk [lbrace])) fuel key acc i h' hb',
        ← parseLoop_agree lines (lines.set i (String.mk [lbrace])) hlen fuel none [] (i+1) hag1]
    cases key with
    | none => rfl
    | some k =>
      show (if k.isEmpty then POut.err (PError.structural (i+1))
            else match parseLoop lines fuel none [] (i+1) with
                 | POut.tup m j => parseLoop lines fuel (some k) (odInsert acc k (Node.mapping m)) j
                 | POut.bare m =>
                   if m.length == 2 then POut.err PError.typeError
                   else POut.err PError.unpackError
                 | POut.err e => POut.err e
                 | POut.fuelOut => POut.fuelOut)
         = (if k.isEmpty then POut.err (PError.structural (i+1))
            else match parseLoop lines fuel none [] (i+1) with
                 | POut.tup m j =>
                   parseLoop (lines.set i (String.mk [lbrace])) fuel (some k)
                     (odInsert acc k (Node.mapping m)) j
                 | POut.bare m =>
                   if m.length == 2 then POut.err PError.typeError
                   else POut.err PError.unpackError
                 | POut.err e => POut.err e
                 | POut.fuelOut => POut.fuelOut)
      by_cases hk : k.isEmpty
      · rw [if_pos hk, if_pos hk]
      · rw [if_neg hk, if_neg hk]
        cases hres : parseLoop lines fuel none [] (i+1) with
        | tup m j =>
          have hij : i + 1 < j := parseLoop_tup_lt lines fuel none [] m (i+1) j hres
          exact parseLoop_agree lines (lines.set i (String.mk [lbrace])) hlen fuel (some k)
            (odInsert acc k (Node.mapping m)) j
            (fun j' hj' => (getD_set_ne (String.mk [lbrace]) "" lines i j' (by omega)).symm)
        | bare m => rfl
        | err e => rfl
        | fuelOut => rfl

/-- Claim C1 (corrected): the spec example
`parse(["\"a\"", "\x7b", "\"b\"", "\"c\"", "\x7d"])` does not produce the
nested pair `(b, c)`: inside the block, each of the bare quoted-token
lines matches the single-token `key` pattern (checked before the
two-token patterns), so each merely replaces the pending key, which is
discarded at the closing brace. -/
theorem claim1_counterexample :
    parse ["\"a\"", "\x7b", "\"b\"", "\"c\"", "\x7d"]
      ≠ POut.bare [("a", Node.mapping [("b", Node.scalar "c")])] := by
  intro hcontra
  have h1 : POut.bare [("a", Node.mapping ([] : List (String × Node)))]
      = POut.bare [("a", Node.mapping [("b", Node.scalar "c")])] := Eq.trans (by rfl) hcontra
  simp at h1

/-- Claim C1 (corrected, amended): parsing the five lines binds `a` to
an empty nested mapping; the inner lines `"b"` and `"c"` only set and
overwrite the pending key of the nested level and bind nothing. -/
theorem claim1_theorem :
    parse ["\"a\"", "\x7b", "\"b\"", "\"c\"", "\x7d"]
      = POut.bare [("a", Node.mapping [])] := rfl

/-- Claim C2 (corrected): the spec example of duplicate keys fails: all
four lines are bare quoted tokens, which match the single-token `key`
pattern and bind nothing, so the result is not two ordered pairs. -/
theorem claim2_counterexample :
    parse ["\"k\"", "\"v1\"", "\"k\"", "\"v2\""]
      ≠ POut.bare [("k", Node.scalar "v1"), ("k", Node.scalar "v2")] := by
  intro hcontra
  have h1 : POut.bare ([] : List (String × Node))
      = POut.bare [("k", Node.scalar "v1"), ("k", Node.scalar "v2")] := Eq.trans (by rfl) hcontra
  simp at h1

/-- Claim C2 (corrected, amended): the four bare-token lines yield an
empty root mapping, and duplicate keys written as two-token lines are
merged dict-style: the later value overwrites the earlier one while the
key keeps its first-insertion position (`OrderedDict` semantics, not an
ordered list of pairs). -/
theorem claim2_theorem :
    parse ["\"k\"", "\"v1\"", "\"k\"", "\"v2\""] = POut.bare []
    ∧ parse ["\"a\" \"1\"", "\"k\" \"v1\"", "\"k\" \"v2\"", "\"b\" \"2\""]
        = POut.bare [("a", Node.scalar "1"), ("k", Node.scalar "v2"), ("b", Node.scalar "2")] :=
  ⟨rfl, rfl⟩

/-- Claim C3 (corrected): the spec example `parse(["\"k\"", "\"v\""])`
does not bind `(k, v)`: each of the two lines matches the single-token
`key` pattern, which is checked before the two-line case, so each line
only replaces the pending key. -/
theorem claim3_counterexample :
    parse ["\"k\"", "\"v\""] ≠ POut.bare [("k", Node.scalar "v")] := by
  intro hcontra
  have h1 : POut.bare ([] : List (String × Node))
      = POut.bare [("k", Node.scalar "v")] := Eq.trans (by rfl) hcontra
  simp at h1

/-- Claim C3 (corrected, amended): two bare quoted-token lines yield an
empty root; the two-line case fires only when the first line alone
matches neither pattern, e.g. when the value quote is split across the
lines, in which case the separating space joins the captured value. -/
theorem claim3_theorem :
    parse ["\"k\"", "\"v\""] = POut.bare []
    ∧ parse ["\"k\" \"v", "\""] = POut.bare [("k", Node.scalar "v ")] :=
  ⟨rfl, rfl⟩

/-- Claim C4 (corrected): input ending inside an unclosed nested block
does raise.  The nested call returns a bare `OrderedDict` (not a
`(mapping, cursor)` tuple), and the caller's tuple unpacking
`_mapper[key], i = ...` of the empty dict raises `ValueError`, so parse
does not return a root mapping binding `k`. -/
theorem claim4_counterexample :
    parse ["\"k\"", "\x7b", "\"x\""] ≠ POut.bare [("k", Node.mapping [])] := by
  intro hcontra
  have h1 : POut.err PError.unpackError = POut.bare [("k", Node.mapping [])] :=
    Eq.trans (by rfl) hcontra
  simp at h1

/-- Claim C4 (corrected, amended): end of input inside a nested block
raises the tuple-unpacking `ValueError` instead of acting as an implicit
close; only at the top level is the case-5 lookahead `IndexError` at the
last line caught, with the line discarded and the scan ended without
raising. -/
theorem claim4_theorem :
    parse ["\"k\"", "\x7b", "\"x\""] = POut.err PError.unpackError
    ∧ parse ["\"x"] = POut.bare [] :=
  ⟨rfl, rfl⟩

/-- Claim C5 (corrected): parse can fail in more ways than the two
documented error kinds, and can succeed with a non-mapping root: input
ending inside a nested block whose accumulated dict has exactly two
entries raises `TypeError` (the unpacked cursor is a string), and a
stray top-level closing brace makes the top-level call return a
`(mapping, cursor)` tuple rather than a mapping. -/
theorem claim5_counterexample :
    parse ["\"a\"", "\x7b", "\"b\" \"c\"", "\"d\" \"e\""] = POut.err PError.typeError
    ∧ parse ["\x7d"] = POut.tup [] 1 :=
  ⟨rfl, rfl⟩

/-- Claim C5 (corrected, amended): besides the structural error (and
`IOError` in the file wrapper), parse raises `ValueError` or `TypeError`
when input ends inside an unclosed nested block, and a stray top-level
closing brace yields a `(mapping, cursor)` tuple; the silent-skip part
of the claim holds: at any level, a line matching no rule (and whose
concatenation with the next line fails the two-line guard) is discarded
and parsing continues, end of input at the lookahead included. -/
theorem claim5_theorem :
    parse ["\"z\"", "\x7b"] = POut.err PError.unpackError
    ∧ parse ["\"k\"", "\x7b", "junk", "\"a\" \"b\"", "\x7d"]
        = POut.bare [("k", Node.mapping [("a", Node.scalar "b")])]
    ∧ (∀ (lines : List String) (fuel : Nat) (key : Option String)
         (acc : List (String × Node)) (i : Nat),
        i < lines.length →
        startsWithChar lbrace (lines.getD i "") = false →
        startsWithChar rbrace (lines.getD i "") = false →
        keyCapL (lines.getD i "").data = none →
        kvCapL (lines.getD i "").data = none →
        ((i + 1 < lines.length →
            kvCapL ((lines.getD i "").data ++ (lines.getD (i+1) "").data) = none →
            parseLoop lines (fuel+1) key acc i = parseLoop lines fuel key acc (i+1))
         ∧ (¬ i + 1 < lines.length → parseLoop lines (fuel+1) key acc i = POut.bare acc))) :=
  ⟨rfl, rfl,
   fun lines fuel key acc i h hb1 hb2 hkey hkv =>
     ⟨fun h2 hcat => parseLoop_step_skip lines fuel key acc i h hb1 hb2 hkey hkv h2 hcat,
      fun hend => parseLoop_step_lookahead_end lines fuel key acc i h hb1 hb2 hkey hkv hend⟩⟩

/-- Witness for the universal silent-skip part of the C5 theorem at a
concrete unrecognized final line. -/
theorem claim5_theorem_witness : parseLoop ["junk"] 1 none [] 0 = POut.bare [] :=
  (claim5_theorem.2.2 ["junk"] 0 none [] 0 (by decide) (by decide) (by decide)
    (by decide) (by decide)).2 (by decide)

/-- Claim C6 (confirmed): whenever the scan reaches an opening-brace
line with no pending key, the parse raises the structural error carrying
the 1-based number of that line; the error propagates, in particular for
the spec example (line 1) and through a nested level (line 3). -/
theorem claim6_theorem :
    (∀ (lines : List String) (fuel : Nat) (acc : List (String × Node)) (i : Nat),
       i < lines.length → startsWithChar lbrace (lines.getD i "") = true →
       parseLoop lines (fuel+1) none acc i = POut.err (PError.structural (i+1)))
    ∧ parse ["\x7b", "\"x\" \"y\"", "\x7d"] = POut.err (PError.structural 1)
    ∧ parse ["\"k\"", "\x7b", "\x7b", "\x7d", "\x7d"] = POut.err (PError.structural 3) :=
  ⟨fun lines fuel acc i h hb => parseLoop_step_lbrace_nokey lines fuel acc i h hb, rfl, rfl⟩

/-- Witness for the universal part of the C6 theorem at a concrete
single-brace input. -/
theorem claim6_theorem_witness :
    parseLoop [String.mk [lbrace]] 1 none [] 0 = POut.err (PError.structural 1) :=
  claim6_theorem.1 [String.mk [lbrace]] 0 [] 0 (by decide) (by decide)

/-- Claim C7 (corrected): a single-quoted key with a double-quoted value
is not recognized: the `key_value` pattern closes the value with the
backreference to the key's quote character, so the line is skipped and
no pair is bound. -/
theorem claim7_counterexample :
    parse [String.mk [squote, 'k', squote, ' ', dquote, 'v', dquote]] = POut.bare []
    ∧ parse [String.mk [squote, 'k', squote, ' ', dquote, 'v', dquote]]
        ≠ POut.bare [("k", Node.scalar "v")] := by
  refine ⟨rfl, ?_⟩
  intro hcontra
  have h1 : POut.bare ([] : List (String × Node))
      = POut.bare [("k", Node.scalar "v")] := Eq.trans (by rfl) hcontra
  simp at h1

/-- Claim C7 (corrected, amended): the two tokens' quote characters are
not independent.  The value token may open with either quote character,
but must close with the key's quote character; hence for quote-free keys
and values a single-quoted key with a double-quoted value (and vice
versa) is skipped, while a double-quoted key whose value opens with a
single quote and closes with a double quote is bound. -/
theorem claim7_theorem (k v : List Char)
    (hk : ∀ c ∈ k, isQuote c = false ∧ c ≠ nlChar)
    (hv : ∀ c ∈ v, isQuote c = false ∧ c ≠ nlChar) :
    parse [String.mk (squote :: (k ++ squote :: ' ' :: dquote :: (v ++ [dquote])))] = POut.bare []
    ∧ parse [String.mk (dquote :: (k ++ dquote :: ' ' :: squote :: (v ++ [squote])))] = POut.bare []
    ∧ parse [String.mk (dquote :: (k ++ dquote :: ' ' :: squote :: (v ++ [dquote])))]
        = POut.bare [(String.mk k, Node.scalar (String.mk v))] := by
  have hks : ∀ c ∈ k, c ≠ squote ∧ c ≠ nlChar :=
    fun c hc => ⟨(not_quote_elim (hk c hc).1).1, (hk c hc).2⟩
  have hkd : ∀ c ∈ k, c ≠ dquote ∧ c ≠ nlChar :=
    fun c hc => ⟨(not_quote_elim (hk c hc).1).2, (hk c hc).2⟩
  have hvd : ∀ c ∈ v, c ≠ dquote ∧ c ≠ nlChar :=
    fun c hc => ⟨(not_quote_elim (hv c hc).1).2, (hv c hc).2⟩
  refine ⟨?_, ?_, ?_⟩
  · refine parse_single_unclosed squote dquote k (v ++ [dquote]) (by decide) (by decide) hks ?_
    intro c hc
    rcases List.mem_append.mp hc with h1 | h1
    · exact (not_quote_elim (hv c h1).1).1
    · have : c = dquote := List.mem_singleton.mp h1
      subst this
      decide
  · refine parse_single_unclosed dquote squote k (v ++ [squote]) (by decide) (by decide) hkd ?_
    intro c hc
    rcases List.mem_append.mp hc with h1 | h1
    · exact (not_quote_elim (hv c h1).1).2
    · have : c = squote := List.mem_singleton.mp h1
      subst this
      decide
  · exact parse_single_kv_line dquote squote k v [] (by decide) (by decide) hkd hvd

/-- Witness for the C7 theorem at the one-character key `k` and value
`v`. -/
theorem claim7_theorem_witness :
    parse [String.mk [squote, 'k', squote, ' ', dquote, 'v', dquote]] = POut.bare []
    ∧ parse [String.mk [dquote, 'k', dquote, ' ', squote, 'v', squote]] = POut.bare []
    ∧ parse [String.mk [dquote, 'k', dquote, ' ', squote, 'v', dquote]]
        = POut.bare [("k", Node.scalar "v")] :=
  claim7_theorem ['k'] ['v'] (by decide) (by decide)

/-- Claim C8 (confirmed): whenever the two-line case binds a pair, the
cursor advances by exactly one line, so the second line is re-scanned as
a fresh line; in the closed example the second line both completes the
two-line match (the captured value is the `v` and the inserted space)
and is then re-processed as a one-line `key_value` binding. -/
theorem claim8_theorem :
    (∀ (lines : List String) (fuel : Nat) (key : Option String)
       (acc : List (String × Node)) (i : Nat) (r : List Char × List Char) (kk vv : List Char),
       i < lines.length →
       startsWithChar lbrace (lines.getD i "") = false →
       startsWithChar rbrace (lines.getD i "") = false →
       keyCapL (lines.getD i "").data = none →
       kvCapL (lines.getD i "").data = none →
       i + 1 < lines.length →
       kvCapL ((lines.getD i "").data ++ (lines.getD (i+1) "").data) = some r →
       kvSearchL ((lines.getD i "").data ++ ' ' :: (lines.getD (i+1) "").data) = some (kk, vv) →
       parseLoop lines (fuel+1) key acc i
         = parseLoop lines fuel key (odInsert acc (String.mk kk) (Node.scalar (String.mk vv))) (i+1))
    ∧ parse ["\"k\" \"v", "\"x\" \"y\""]
        = POut.bare [("k", Node.scalar "v "), ("x", Node.scalar "y")] :=
  ⟨fun lines fuel key acc i r kk vv h hb1 hb2 hkey hkv h2 hcat hs =>
     parseLoop_step_twoline lines fuel key acc i r kk vv h hb1 hb2 hkey hkv h2 hcat hs,
   rfl⟩

/-- Witness for the universal part of the C8 theorem at a concrete
split pair. -/
theorem claim8_theorem_witness :
    parseLoop ["\"k\" \"v", "\""] 2 none [] 0
      = parseLoop ["\"k\" \"v", "\""] 1 none (odInsert [] "k" (Node.scalar "v ")) 1 :=
  claim8_theorem.1 ["\"k\" \"v", "\""] 1 none [] 0 (['k'], ['v']) ['k'] ['v', ' ']
    (by decide) (by decide) (by decide) (by decide) (by decide) (by decide) (by decide) (by decide)

/-- Claim C9 (confirmed): brace recognition looks only at the first
character of the line.  Any line starting with the closing brace closes
the level regardless of trailing content; any line starting with the
opening brace behaves exactly like the bare one-character brace line;
and in the closed example `\x7b "a" "b"` opens a block and
`\x7d trailing` closes it. -/
theorem claim9_theorem :
    (∀ (lines : List String) (fuel : Nat) (key : Option String)
       (acc : List (String × Node)) (i : Nat),
       i < lines.length → startsWithChar rbrace (lines.getD i "") = true →
       parseLoop lines (fuel+1) key acc i = POut.tup acc (i+1))
    ∧ (∀ (lines : List String) (fuel : Nat) (key : Option String)
         (acc : List (String × Node)) (i : Nat),
       i < lines.length → startsWithChar lbrace (lines.getD i "") = true →
       parseLoop lines fuel key acc i
         = parseLoop (lines.set i (String.mk [lbrace])) fuel key acc i)
    ∧ parse ["\"k\"", "\x7b \"a\" \"b\"", "\"x\" \"y\"", "\x7d trailing", "\"p\" \"q\""]
        = POut.bare [("k", Node.mapping [("x", Node.scalar "y")]), ("p", Node.scalar "q")] :=
  ⟨fun lines fuel key acc i h hb => parseLoop_step_rbrace lines fuel key acc i h hb,
   fun lines fuel key acc i h hb => parseLoop_set_lbrace lines fuel key acc i h hb,
   rfl⟩

/-- Witness for the universal closing-brace part of the C9 theorem at a
closing-brace line with trailing content. -/
theorem claim9_theorem_witness :
    parseLoop ["\x7d trailing"] 1 none [] 0 = POut.tup [] 1 :=
  claim9_theorem.1 ["\x7d trailing"] 0 none [] 0 (by decide) (by decide)

/-- Claim C10 (confirmed): two-token recognition matches only a prefix
of the line.  For any line whose prefix is a `q`-quoted key, a space,
and a value opened by a quote character and closed by `q`, the pair is
bound whatever text follows the value's closing quote, further quoted
tokens included. -/
theorem claim10_theorem (q p : Char) (k v t : List Char)
    (hq : isQuote q = true) (hp : isQuote p = true)
    (hk : ∀ c ∈ k, c ≠ q ∧ c ≠ nlChar) (hv : ∀ c ∈ v, c ≠ q ∧ c ≠ nlChar) :
    parse [String.mk (q :: (k ++ q :: ' ' :: p :: (v ++ q :: t)))]
      = POut.bare [(String.mk k, Node.scalar (String.mk v))] :=
  parse_single_kv_line q p k v t hq hp hk hv

/-- Witness for the C10 theorem: the extra quoted tokens `"c" "d"` after
the bound pair `("a", "b")` are ignored. -/
theorem claim10_theorem_witness :
    parse ["\"a\" \"b\" \"c\" \"d\""] = POut.bare [("a", Node.scalar "b")] :=
  claim10_theorem dquote dquote ['a'] ['b'] [' ', dquote, 'c', dquote, ' ', dquote, 'd', dquote]
    (by decide) (by decide) (by decide) (by decide)
